import Mathlib

/-!
Shallow embedding of the loom runtime's scheduling core
(src/loom_runtime/loom_scheduler.c, loom_runtime.c, loom_memory.c)
and proofs about the frozen claims.

Conventions:
- A C coroutine (fiber) pointer is modelled as a `Coroutine` value carrying an
  identity and the fiber's atomic state.  Within a single call of the embedded
  functions the state field is only read (the C code reads it with atomic
  loads and does not write it inside these loops), so an immutable field is
  faithful for single-call properties.
- The singly-linked `coroutine_queue_t` (first/last/size) is modelled as the
  list of coroutines from `first` to `last`; `size` is the list length (the C
  code keeps the two in sync, asserting it with m_dev_assert).
- C `for` loops whose index is compared against a mutable bound are embedded
  as structural recursion on a fuel counter that is decremented once per
  iteration, with the loop condition re-checked each step exactly as in C.
  The fuel passed at the call site equals the initial bound, which is an upper
  bound on the iteration count (the index grows by one per iteration and the
  bound never grows), so the fuel-exhaustion arm, which returns the same value
  as the normal loop exit, is never the deciding arm.
- Machine integers (u64 register values, bytes) are modelled as `Nat`;
  a "bit-for-bit" copy is equality of the modelled values.
-/

namespace Loom

/-- coroutine_state_t from loom_scheduler.h (enum values 0..5). -/
inductive CoroutineState where
  | cs_created
  | cs_runnable
  | cs_running
  | cs_syscall
  | cs_waiting
  | cs_done
deriving DecidableEq, Repr

/-- A coroutine_t pointer: identity plus the fiber's atomic state field. -/
structure Coroutine where
  id : Nat
  state : CoroutineState
deriving DecidableEq, Repr

/-- coroutine_queue_t: the fibers held from first to last, in link order. -/
abbrev CoroutineQueue := List Coroutine

/-- coroutine_queue_append (loom_scheduler.c:241): link a new node after
last, so the coroutine becomes the new tail. -/
def coroutine_queue_append (q : CoroutineQueue) (c : Coroutine) : CoroutineQueue :=
  q ++ [c]

/-- coroutine_queue_popleft (loom_scheduler.c:272): asserts size > 0, removes
the head node and returns its coroutine.  `none` models the fatal assert on an
empty queue. -/
def coroutine_queue_popleft : CoroutineQueue → Option (Coroutine × CoroutineQueue)
  | [] => none
  | c :: rest => some (c, rest)

/-- coroutine_queue_reenqueue (loom_scheduler.c:353): size 0 returns null and
leaves the queue alone; size 1 returns the single coroutine and leaves the
queue alone; size >= 2 relinks the head node behind the tail and returns the
new head's coroutine. -/
def coroutine_queue_reenqueue : CoroutineQueue → Option Coroutine × CoroutineQueue
  | [] => (none, [])
  | [c] => (some c, [c])
  | c :: c2 :: rest => (some c2, (c2 :: rest) ++ [c])

/-- Repeated coroutine_queue_popleft, collecting the returned coroutines while
the queue is non-empty, for at most `fuel` pops. -/
def coroutine_queue_pop_all (fuel : Nat) (q : CoroutineQueue) : List Coroutine :=
  match fuel with
  | 0 => []
  | fuel + 1 =>
    match coroutine_queue_popleft q with
    | none => []
    | some (c, rest) => c :: coroutine_queue_pop_all fuel rest

/-- scheduler_t from loom_scheduler.h: the current fiber pointer (null is
`none`) and the local queue. -/
structure Scheduler where
  current : Option Coroutine
  local_queue : CoroutineQueue
deriving DecidableEq, Repr

/-- Result of scheduler_get_first_runnable: the returned coroutine pointer
(null is `none`), the scheduler state on return, and the coroutines passed to
coroutine_free during the call, in call order. -/
structure SgfrResult where
  ret : Option Coroutine
  sched : Scheduler
  freed : List Coroutine
deriving DecidableEq, Repr

/-- The for loop of scheduler_get_first_runnable (loom_scheduler.c:407-433).
`i` is the loop index, compared against the live queue size each iteration.
If the head is cs_runnable it is set as current and returned, without being
popped.  If the head is cs_done it is popped, freed, and current is cleared.
In either non-returning case the queue is then rotated and the scan continues.
When the index reaches the size, current is cleared and null is returned.
`fuel` decreases by one per iteration; the call site passes the initial queue
size, which bounds the iteration count, and the fuel-exhaustion arm returns
the same value as the normal loop exit. -/
def scheduler_get_first_runnable_loop (fuel i : Nat) (s : Scheduler)
    (freed : List Coroutine) : SgfrResult :=
  match fuel with
  | 0 => ⟨none, { s with current := none }, freed⟩
  | fuel + 1 =>
    if i < s.local_queue.length then
      match s.local_queue with
      | [] => ⟨none, { s with current := none }, freed⟩
      | c :: rest =>
        if c.state = .cs_runnable then
          ⟨some c, { s with current := some c }, freed⟩
        else if c.state = .cs_done then
          scheduler_get_first_runnable_loop fuel (i + 1)
            ⟨none, (coroutine_queue_reenqueue rest).2⟩ (freed ++ [c])
        else
          scheduler_get_first_runnable_loop fuel (i + 1)
            { s with local_queue := (coroutine_queue_reenqueue s.local_queue).2 } freed
    else ⟨none, { s with current := none }, freed⟩

/-- scheduler_get_first_runnable (loom_scheduler.c:407). -/
def scheduler_get_first_runnable (s : Scheduler) : SgfrResult :=
  scheduler_get_first_runnable_loop s.local_queue.length 0 s []

/-- The local queues of the worker pool (loom_runtime->working_threads),
each worker contributing its scheduler's local_queue. -/
abbrev WorkerQueues := List CoroutineQueue

/-- thread_enqueue_local on working_threads[idx] (loom_scheduler.c:454,
loom_runtime.c:114-118): append the coroutine to that worker's local queue.
Out-of-range idx leaves the pool unchanged (unreachable: the caller indexes
with a value reduced mod the pool size). -/
def workers_enqueue : WorkerQueues → Nat → Coroutine → WorkerQueues
  | [], _, _ => []
  | w :: ws, 0, c => coroutine_queue_append w c :: ws
  | w :: ws, idx + 1, c => w :: workers_enqueue ws idx c

/-- loom_runtime_t state relevant to recycle_global_queue: the global queue,
the worker pool's local queues, and the monitor's round-robin counter
last_received_work_thread (passed by pointer into recycle_global_queue). -/
structure RuntimeState where
  global_queue : CoroutineQueue
  workers : WorkerQueues
  last : Nat
deriving DecidableEq, Repr

/-- enqueue_to_next_thread (loom_runtime.c:111-123): advance the shared
round-robin counter modulo the worker count and append the coroutine to that
worker's local queue. -/
def enqueue_to_next_thread (st : RuntimeState) (c : Coroutine) : RuntimeState :=
  let next := (st.last + 1) % st.workers.length
  { st with last := next, workers := workers_enqueue st.workers next c }

/-- Result of recycle_global_queue: `fatal` is true when the m_assert(0)
"unreachable state" branch for cs_created was reached (the process aborts
there); `state` and `freed` are the runtime state and the coroutines passed
to coroutine_free up to that point, in call order. -/
structure RecycleResult where
  fatal : Bool
  state : RuntimeState
  freed : List Coroutine
deriving DecidableEq, Repr

/-- The for loop of recycle_global_queue (loom_runtime.c:125-167).  `i` is
the loop index, compared against the live global queue size each iteration.
A cs_runnable head is appended to the next round-robin worker and then popped
from the global queue; a cs_done head is popped and freed; a cs_created head
is a fatal assertion; cs_running, cs_syscall and cs_waiting rotate the queue.
`fuel` decreases by one per iteration; the call site passes the initial queue
size, which bounds the iteration count, and the fuel-exhaustion arm returns
the same value as the normal loop exit. -/
def recycle_global_queue_loop (fuel i : Nat) (st : RuntimeState)
    (freed : List Coroutine) : RecycleResult :=
  match fuel with
  | 0 => ⟨false, st, freed⟩
  | fuel + 1 =>
    if i < st.global_queue.length then
      match st.global_queue with
      | [] => ⟨false, st, freed⟩
      | c :: rest =>
        match c.state with
        | .cs_runnable =>
          recycle_global_queue_loop fuel (i + 1)
            { enqueue_to_next_thread st c with global_queue := rest } freed
        | .cs_done =>
          recycle_global_queue_loop fuel (i + 1)
            { st with global_queue := rest } (freed ++ [c])
        | .cs_created => ⟨true, st, freed⟩
        | _ =>
          recycle_global_queue_loop fuel (i + 1)
            { st with global_queue := (coroutine_queue_reenqueue st.global_queue).2 }
            freed
    else ⟨false, st, freed⟩

/-- recycle_global_queue (loom_runtime.c:125), run under the global queue
lock. -/
def recycle_global_queue (st : RuntimeState) : RecycleResult :=
  recycle_global_queue_loop st.global_queue.length 0 st []

/-- registers_t from loom_scheduler.h: u64 r[31] (modelled as a map over the
indices 0..30), plus sp and pc.  Register values are u64; they are modelled
as Nat, and a bit-for-bit copy is equality of the modelled values. -/
structure Registers where
  r : Nat → Nat
  sp : Nat
  pc : Nat

/-- The fields of struct __darwin_arm_thread_state64 read by
copy_current_ucontext: __x[29] (modelled as a map over indices 0..28),
__fp, __lr, __sp, __pc. -/
structure ThreadState64 where
  x : Nat → Nat
  fp : Nat
  lr : Nat
  sp : Nat
  pc : Nat

/-- The for loop of copy_current_ucontext (loom_scheduler.c:538-540):
registers->r[i] = ss->__x[i] for i = 0 .. n-1, applied in order. -/
def copy_x_loop (r x : Nat → Nat) : Nat → (Nat → Nat)
  | 0 => r
  | n + 1 => Function.update (copy_x_loop r x n) n (x n)

/-- copy_current_ucontext (loom_scheduler.c:536-546): copy __x[0..28] into
r[0..28], __fp into r[29], __lr into r[30], then __sp into sp and __pc
into pc. -/
def copy_current_ucontext (regs : Registers) (ss : ThreadState64) : Registers :=
  { r := Function.update (Function.update (copy_x_loop regs.r ss.x 29) 29 ss.fp) 30 ss.lr,
    sp := ss.sp,
    pc := ss.pc }

/-- The argument sizes accepted by the switch in coroutine_context_copy_args
(loom_scheduler.c:128-148): 1, 2, 4 or 8 bytes. -/
def okSize (s : Nat) : Prop := s = 1 ∨ s = 2 ∨ s = 4 ∨ s = 8

instance (s : Nat) : Decidable (okSize s) := by
  unfold okSize
  infer_instance

/-- Little-endian read of `k` bytes of the packed argument buffer starting at
`offset`, as performed by the u8/u16/u32/u64 loads at
loom_scheduler.c:130-142 on this little-endian target.  Bytes past the end
of the buffer read as 0. -/
def readLE (args : List Nat) (offset : Nat) : Nat → Nat
  | 0 => 0
  | k + 1 => args.getD offset 0 + 256 * readLE args (offset + 1) k

/-- Result of coroutine_context_copy_args: `fatal` is true when the default
switch arm was reached, i.e. the m_assert(0, "Unsupported arg size")
assertion fired and the function returned early; `r` is the register file
on return. -/
structure CopyArgsResult where
  fatal : Bool
  r : Nat → Nat

/-- coroutine_context_copy_args (loom_scheduler.c:118-153): walk the argument
sizes in declaration order; an argument of size 1, 2, 4 or 8 is loaded from
the packed buffer at the running offset, zero-extended, and stored into the
next register r[i]; any other size hits the fatal assertion arm and the
function returns early, writing no register for that argument. -/
def coroutine_context_copy_args (args : List Nat) :
    (Nat → Nat) → List Nat → Nat → Nat → CopyArgsResult
  | r, [], _, _ => ⟨false, r⟩
  | r, s :: restSizes, i, offset =>
    if okSize s then
      coroutine_context_copy_args args
        (Function.update r i (readLE args offset s)) restSizes (i + 1) (offset + s)
    else ⟨true, r⟩

/-- Whether each of the four sigblock_malloc calls reached while spawning a
fiber succeeds: the coroutine_t struct (loom_scheduler.c:165), the
coroutine_context_t struct (loom_scheduler.c:77), the coroutine_stack_t
struct (loom_scheduler.c:22), and the stack memory (loom_scheduler.c:31). -/
structure AllocOracle where
  coroutineAlloc : Bool
  contextAlloc : Bool
  stackAlloc : Bool
  stackMemAlloc : Bool
deriving DecidableEq, Repr

/-- How an allocation-failure run of runtime_schedule dies: dereferencing a
null pointer not guarded by any check, or failing an m_assert /
m_dev_assert. -/
inductive Crash where
  | nullDeref
  | assertFail
deriving DecidableEq, Repr

/-- The allocation behaviour of coroutine_create (loom_scheduler.c:154-180)
in evaluation order.  The coroutine_t allocation result is not checked; it is
first dereferenced by the store coroutine->context = ... *after*
coroutine_context_create returns, so the context / stack-struct / stack
memory assertion failures fire first, and a failed coroutine_t allocation
surfaces as a null dereference. -/
def coroutine_create_allocs (o : AllocOracle) : Except Crash Unit :=
  if o.contextAlloc = false then .error .assertFail
  else if o.stackAlloc = false then .error .assertFail
  else if o.stackMemAlloc = false then .error .assertFail
  else if o.coroutineAlloc = false then .error .nullDeref
  else .ok ()

/-- runtime_schedule (loom_runtime.c:54-92): create the fiber (any allocation
failure is fatal and the function never returns), append it to the global
queue under the queue lock, set its state to cs_runnable, and return the
(non-null) fiber pointer. -/
def runtime_schedule (o : AllocOracle) (gq : CoroutineQueue) (newId : Nat) :
    Except Crash (Option Coroutine × CoroutineQueue) :=
  match coroutine_create_allocs o with
  | .error e => .error e
  | .ok _ =>
    let c : Coroutine := ⟨newId, .cs_runnable⟩
    .ok (some c, coroutine_queue_append gq c)

/-- Lock and context-restore events on a worker's code paths.  lock_global /
unlock_global are the runtime's global queue lock (loom_runtime->queue_lock);
lock_local / unlock_local are the worker's own queue lock
(thread->queue_lock); restore is a call to the loom_restore_context
primitive. -/
inductive LockEvent where
  | lock_global
  | unlock_global
  | lock_local
  | unlock_local
  | restore
deriving DecidableEq, Repr

/-- thread_local_queue_size (loom_scheduler.c:474-480): lock the worker's
queue lock, read the size, unlock. -/
def thread_local_queue_size_events : List LockEvent := [.lock_local, .unlock_local]

/-- thread_reenqueue_local (loom_scheduler.c:468-472): lock the worker's
queue lock, rotate the local queue, unlock. -/
def thread_reenqueue_local_events : List LockEvent := [.lock_local, .unlock_local]

/-- One pass of loom_working_thread_main's loop body up to its non-returning
context restore (loom_scheduler.c:609-646): after waking from the idle
semaphore, read the local queue size under the queue lock (the `< 0` guard
on the unsigned size is never taken), then restore the main coroutine's
context.  Signal blocking and semaphore waits take no lock. -/
def loom_working_thread_main_events : List LockEvent :=
  thread_local_queue_size_events ++ [.restore]

/-- sigurg_handler (loom_scheduler.c:548-564) after capturing the interrupted
registers: rotate the local queue under the worker's queue lock, then
restore the main coroutine's context. -/
def sigurg_handler_events : List LockEvent :=
  thread_reenqueue_local_events ++ [.restore]

/-- thread_schedule (loom_scheduler.c:566-606): read the local queue size
under the lock (the `< 0` guard on the unsigned size is never taken), lock
the queue lock, optionally mark the current fiber runnable and rotate
(`currentRunning`, no lock events of its own), pick the first runnable
fiber, unlock, and then either restore the picked fiber's context
(`foundRunnable`) or fall into loom_working_thread_main. -/
def thread_schedule_events (currentRunnable foundRunnable : Bool) : List LockEvent :=
  thread_local_queue_size_events ++ [.lock_local] ++
    (if currentRunnable then [] else []) ++ [.unlock_local] ++
    (if foundRunnable then [.restore] else loom_working_thread_main_events)

/-- Check that at every restore event in the trace, the number of
currently-held global queue locks and local queue locks are both zero,
starting from `g` held global and `l` held local locks. -/
def locksClearAtRestore : List LockEvent → Nat → Nat → Bool
  | [], _, _ => true
  | e :: rest, g, l =>
    match e with
    | .lock_global => locksClearAtRestore rest (g + 1) l
    | .unlock_global => locksClearAtRestore rest (g - 1) l
    | .lock_local => locksClearAtRestore rest g (l + 1)
    | .unlock_local => locksClearAtRestore rest g (l - 1)
    | .restore => g == 0 && l == 0 && locksClearAtRestore rest g l

/-- sigblock_malloc (loom_memory.c:12-29): with SIGURG blocked, call the host
allocator; on failure return null without touching memory, otherwise memset
the whole block to zero and return it.  `raw` is the host allocator's result,
a block of arbitrary bytes or none. -/
def sigblock_malloc (raw : Option (List Nat)) : Option (List Nat) :=
  match raw with
  | none => none
  | some m => some (m.map fun _ => 0)

/-- The fields of coroutine_t (loom_scheduler.h:105-112), with pointers
modelled as Nat (0 is null): context, func, thread (the owning-worker
back-reference), state, location. -/
structure CoroutineFields where
  context : Nat
  func : Nat
  thread : Nat
  state : CoroutineState
  location : Nat
deriving DecidableEq, Repr

/-- A coroutine_t read out of a freshly sigblock_malloc'ed (hence all-zero)
block: every pointer field is null and the state enum is cs_created = 0. -/
def coroutine_struct_of_zeroed : CoroutineFields :=
  ⟨0, 0, 0, .cs_created, 0⟩

/-- The field writes of coroutine_create (loom_scheduler.c:154-180) on the
zeroed block: set context, func, location and store cs_created into state.
The thread back-reference is never written and keeps its zeroed (null)
value. -/
def coroutine_create_fields (func loc ctxPtr : Nat) : CoroutineFields :=
  { coroutine_struct_of_zeroed with
    context := ctxPtr, func := func, location := loc, state := .cs_created }

theorem coroutine_queue_foldl_append (cs : List Coroutine) (acc : CoroutineQueue) :
    cs.foldl coroutine_queue_append acc = acc ++ cs := by
  induction cs generalizing acc with
  | nil => simp
  | cons c cs ih => simp [coroutine_queue_append, ih]

theorem coroutine_queue_pop_all_self (q : CoroutineQueue) :
    coroutine_queue_pop_all q.length q = q := by
  induction q with
  | nil => simp [coroutine_queue_pop_all]
  | cons c rest ih =>
    simp [coroutine_queue_pop_all, coroutine_queue_popleft, ih]

/-- Claim C6: coroutine_queue_reenqueue on a queue of size >= 2 moves the head
element to the tail and shifts every other element forward by one position;
on a queue of size 0 or 1 it leaves the contents and order unchanged. -/
theorem coroutine_queue_reenqueue_rotation :
    (coroutine_queue_reenqueue ([] : CoroutineQueue)).2 = []
    ∧ (∀ c : Coroutine, (coroutine_queue_reenqueue [c]).2 = [c])
    ∧ (∀ (c c2 : Coroutine) (rest : CoroutineQueue),
        (coroutine_queue_reenqueue (c :: c2 :: rest)).2 = (c2 :: rest) ++ [c]) := by
  refine ⟨rfl, fun c => rfl, fun c c2 rest => rfl⟩

/-- Claim C7: the fiber queue is FIFO: appending a sequence of fibers to an
initially empty queue and then popping from the front returns the fibers in
exactly the append order. -/
theorem coroutine_queue_fifo (cs : List Coroutine) :
    coroutine_queue_pop_all cs.length (cs.foldl coroutine_queue_append []) = cs := by
  have h := coroutine_queue_foldl_append cs []
  rw [h]
  simpa using coroutine_queue_pop_all_self cs

theorem mem_reenqueue (x : Coroutine) (q : CoroutineQueue) :
    x ∈ (coroutine_queue_reenqueue q).2 ↔ x ∈ q := by
  match q with
  | [] => simp [coroutine_queue_reenqueue]
  | [c] => simp [coroutine_queue_reenqueue]
  | c :: c2 :: rest =>
    simp [coroutine_queue_reenqueue]
    tauto

theorem sgfr_loop_freed_mono (fuel : Nat) :
    ∀ (i : Nat) (s : Scheduler) (freed : List Coroutine) (c : Coroutine),
      c ∈ freed → c ∈ (scheduler_get_first_runnable_loop fuel i s freed).freed := by
  induction fuel with
  | zero =>
    intro i s freed c h
    simpa [scheduler_get_first_runnable_loop] using h
  | succ fuel ih =>
    intro i s freed c h
    by_cases hlt : i < s.local_queue.length
    · cases hq : s.local_queue with
      | nil => simp [scheduler_get_first_runnable_loop, hlt, hq, h]
      | cons c' rest =>
        rw [hq] at hlt
        by_cases hr : c'.state = .cs_runnable
        · have hlt' : i < rest.length + 1 := by simpa using hlt
          simp [scheduler_get_first_runnable_loop, hlt', hq, hr, h]
        · by_cases hd : c'.state = .cs_done
          · simp only [scheduler_get_first_runnable_loop, hq, hlt, if_true, hr, hd,
              if_false, ite_true, ite_false]
            exact ih _ _ _ _ (by simp [h])
          · simp only [scheduler_get_first_runnable_loop, hq, hlt, if_true, hr, hd,
              if_false, ite_true, ite_false]
            exact ih _ _ _ _ h
    · simp [scheduler_get_first_runnable_loop, hlt, h]

theorem recycle_loop_freed_mono (fuel : Nat) :
    ∀ (i : Nat) (st : RuntimeState) (freed : List Coroutine) (c : Coroutine),
      c ∈ freed → c ∈ (recycle_global_queue_loop fuel i st freed).freed := by
  induction fuel with
  | zero =>
    intro i st freed c h
    simpa [recycle_global_queue_loop] using h
  | succ fuel ih =>
    intro i st freed c h
    by_cases hlt : i < st.global_queue.length
    · cases hq : st.global_queue with
      | nil => simp [recycle_global_queue_loop, hlt, hq, h]
      | cons c' rest =>
        rw [hq] at hlt
        cases hc : c'.state <;>
          simp only [recycle_global_queue_loop, hq, hlt, if_true, hc, ite_true, ite_false] <;>
          first
            | exact h
            | exact ih _ _ _ _ h
            | exact ih _ _ _ _ (by simp [h])
    · simp [recycle_global_queue_loop, hlt, h]

theorem workers_enqueue_length (ws : WorkerQueues) :
    ∀ (idx : Nat) (c : Coroutine), (workers_enqueue ws idx c).length = ws.length := by
  induction ws with
  | nil => intro idx c; rfl
  | cons w ws ih =>
    intro idx c
    cases idx with
    | zero => rfl
    | succ idx => simp [workers_enqueue, ih]

theorem mem_flatten_workers_enqueue_of_mem (ws : WorkerQueues) :
    ∀ (idx : Nat) (c x : Coroutine), x ∈ ws.flatten → x ∈ (workers_enqueue ws idx c).flatten := by
  induction ws with
  | nil => intro idx c x h; simp at h
  | cons w ws ih =>
    intro idx c x h
    cases idx with
    | zero =>
      simp only [workers_enqueue, coroutine_queue_append, List.flatten_cons,
        List.mem_append] at h ⊢
      tauto
    | succ idx =>
      simp only [workers_enqueue, List.flatten_cons, List.mem_append] at h ⊢
      rcases h with h | h
      · exact Or.inl h
      · exact Or.inr (ih idx c x h)

theorem mem_flatten_workers_enqueue_self (ws : WorkerQueues) :
    ∀ (idx : Nat) (c : Coroutine), idx < ws.length → c ∈ (workers_enqueue ws idx c).flatten := by
  induction ws with
  | nil => intro idx c h; simp at h
  | cons w ws ih =>
    intro idx c h
    cases idx with
    | zero => simp [workers_enqueue, coroutine_queue_append]
    | succ idx =>
      simp only [workers_enqueue, List.flatten_cons, List.mem_append]
      exact Or.inr (ih idx c (by simpa using h))

theorem recycle_loop_workers_mono (fuel : Nat) :
    ∀ (i : Nat) (st : RuntimeState) (freed : List Coroutine) (x : Coroutine),
      x ∈ st.workers.flatten →
      x ∈ (recycle_global_queue_loop fuel i st freed).state.workers.flatten := by
  induction fuel with
  | zero =>
    intro i st freed x h
    simpa [recycle_global_queue_loop] using h
  | succ fuel ih =>
    intro i st freed x h
    by_cases hlt : i < st.global_queue.length
    · cases hq : st.global_queue with
      | nil => simp [recycle_global_queue_loop, hlt, hq, h]
      | cons c' rest =>
        rw [hq] at hlt
        cases hc : c'.state <;>
          simp only [recycle_global_queue_loop, hq, hlt, if_true, hc, ite_true, ite_false] <;>
          first
            | exact h
            | exact ih _ _ _ _ h
            | exact ih _ _ _ _
                (mem_flatten_workers_enqueue_of_mem st.workers _ c' x h)
    · simp [recycle_global_queue_loop, hlt, h]

theorem recycle_loop_runnable_preserved (fuel : Nat) :
    ∀ (i : Nat) (st : RuntimeState) (freed : List Coroutine) (c : Coroutine),
      0 < st.workers.length → c ∈ st.global_queue → c.state = .cs_runnable →
      c ∈ (recycle_global_queue_loop fuel i st freed).state.global_queue
      ∨ c ∈ (recycle_global_queue_loop fuel i st freed).state.workers.flatten := by
  induction fuel with
  | zero =>
    intro i st freed c hw hmem hrun
    simp only [recycle_global_queue_loop]
    exact Or.inl hmem
  | succ fuel ih =>
    intro i st freed c hw hmem hrun
    by_cases hlt : i < st.global_queue.length
    · cases hq : st.global_queue with
      | nil =>
        rw [hq] at hmem
        simp at hmem
      | cons c' rest =>
        rw [hq] at hlt hmem
        cases hc : c'.state <;>
          simp only [recycle_global_queue_loop, hq, hlt, if_true, hc, ite_true, ite_false]
        -- goals in constructor order: created, runnable, running, syscall, waiting, done
        · exact Or.inl hmem
        · by_cases hcc : c = c'
          · subst hcc
            refine Or.inr (recycle_loop_workers_mono fuel _ _ _ _ ?_)
            exact mem_flatten_workers_enqueue_self st.workers _ c
              (Nat.mod_lt _ hw)
          · have hrest : c ∈ rest := by
              rcases List.mem_cons.mp hmem with h | h
              · exact absurd h hcc
              · exact h
            exact ih _ _ _ _ (by simpa [enqueue_to_next_thread, workers_enqueue_length] using hw)
              hrest hrun
        · exact ih _ _ _ _ hw ((mem_reenqueue c (c' :: rest)).mpr hmem) hrun
        · exact ih _ _ _ _ hw ((mem_reenqueue c (c' :: rest)).mpr hmem) hrun
        · exact ih _ _ _ _ hw ((mem_reenqueue c (c' :: rest)).mpr hmem) hrun
        · have hcc : c ≠ c' := by
            intro h
            rw [h, hc] at hrun
            exact absurd hrun (by simp)
          have hrest : c ∈ rest := by
            rcases List.mem_cons.mp hmem with h | h
            · exact absurd h hcc
            · exact h
          exact ih _ _ _ _ hw hrest hrun
    · simp only [recycle_global_queue_loop, hlt, if_false, ite_false]
      exact Or.inl hmem

/-- Claim C1 counterexample: a local scheduler whose queue is the single
Runnable fiber 0.  scheduler_get_first_runnable returns that fiber and sets
it as current, but the fiber is still present in the local queue on return,
so it is not removed from the queue as the claim states. -/
theorem scheduler_get_first_runnable_no_pop_cex :
    scheduler_get_first_runnable ⟨none, [⟨0, .cs_runnable⟩]⟩
      = ⟨some ⟨0, .cs_runnable⟩, ⟨some ⟨0, .cs_runnable⟩, [⟨0, .cs_runnable⟩]⟩, []⟩
    ∧ (⟨0, .cs_runnable⟩ : Coroutine)
        ∈ (scheduler_get_first_runnable ⟨none, [⟨0, .cs_runnable⟩]⟩).sched.local_queue := by
  decide

/-- Claim C1 (amended): for every local scheduler whose queue head is a fiber
in state Runnable, scheduler_get_first_runnable sets that fiber as the
scheduler's current fiber and returns it, leaving the local queue unchanged:
the returned fiber is not popped and remains at the head of the local queue,
and no fiber is freed by the call. -/
theorem scheduler_get_first_runnable_runnable_head (s : Scheduler) (c : Coroutine)
    (rest : CoroutineQueue) (hq : s.local_queue = c :: rest)
    (hr : c.state = .cs_runnable) :
    scheduler_get_first_runnable s = ⟨some c, { s with current := some c }, []⟩ := by
  simp [scheduler_get_first_runnable, scheduler_get_first_runnable_loop, hq, hr]

/-- Witness for scheduler_get_first_runnable_runnable_head at a concrete
two-element queue. -/
theorem scheduler_get_first_runnable_runnable_head_witness :
    (⟨none, [⟨3, .cs_runnable⟩, ⟨4, .cs_done⟩]⟩ : Scheduler).local_queue
        = ⟨3, .cs_runnable⟩ :: [⟨4, .cs_done⟩]
    ∧ (⟨3, .cs_runnable⟩ : Coroutine).state = .cs_runnable
    ∧ scheduler_get_first_runnable ⟨none, [⟨3, .cs_runnable⟩, ⟨4, .cs_done⟩]⟩
        = ⟨some ⟨3, .cs_runnable⟩,
            ⟨some ⟨3, .cs_runnable⟩, [⟨3, .cs_runnable⟩, ⟨4, .cs_done⟩]⟩, []⟩ :=
  ⟨rfl, rfl, scheduler_get_first_runnable_runnable_head _ _ _ rfl rfl⟩

/-- Claim C2 counterexample: a worker's scheduling path frees a Done fiber.
With a local queue holding the single Done fiber 7, the worker-side
scheduler_get_first_runnable pops it and passes it to coroutine_free, so the
Done-to-freed transition is not performed exclusively by the monitor. -/
theorem worker_frees_done_fiber_cex :
    (scheduler_get_first_runnable ⟨none, [⟨7, .cs_done⟩]⟩).freed = [⟨7, .cs_done⟩]
    ∧ (⟨7, .cs_done⟩ : Coroutine)
        ∈ (scheduler_get_first_runnable ⟨none, [⟨7, .cs_done⟩]⟩).freed := by
  decide

/-- Claim C2 (amended): Done fibers are freed on two code paths, not only by
the monitor: a worker's scheduler_get_first_runnable frees a Done fiber at
the head of its local queue, and the monitor's recycle_global_queue frees a
Done fiber at the head of the global queue. -/
theorem done_fiber_freed_by_worker_and_monitor
    (s : Scheduler) (st : RuntimeState) (c d : Coroutine)
    (rest grest : CoroutineQueue)
    (hq : s.local_queue = c :: rest) (hc : c.state = .cs_done)
    (hgq : st.global_queue = d :: grest) (hd : d.state = .cs_done) :
    c ∈ (scheduler_get_first_runnable s).freed
    ∧ d ∈ (recycle_global_queue st).freed := by
  constructor
  · have h1 : scheduler_get_first_runnable s
        = scheduler_get_first_runnable_loop rest.length 1
            ⟨none, (coroutine_queue_reenqueue rest).2⟩ [c] := by
      simp [scheduler_get_first_runnable, scheduler_get_first_runnable_loop, hq, hc]
    rw [h1]
    exact sgfr_loop_freed_mono _ _ _ _ _ (by simp)
  · have h2 : recycle_global_queue st
        = recycle_global_queue_loop grest.length 1
            { st with global_queue := grest } [d] := by
      simp [recycle_global_queue, recycle_global_queue_loop, hgq, hd]
    rw [h2]
    exact recycle_loop_freed_mono _ _ _ _ _ (by simp)

/-- Witness for done_fiber_freed_by_worker_and_monitor at concrete
single-element queues. -/
theorem done_fiber_freed_by_worker_and_monitor_witness :
    (⟨none, [⟨1, .cs_done⟩]⟩ : Scheduler).local_queue = ⟨1, .cs_done⟩ :: []
    ∧ (⟨1, .cs_done⟩ : Coroutine).state = .cs_done
    ∧ (⟨[⟨2, .cs_done⟩], [[]], 0⟩ : RuntimeState).global_queue = ⟨2, .cs_done⟩ :: []
    ∧ (⟨2, .cs_done⟩ : Coroutine).state = .cs_done
    ∧ ((⟨1, .cs_done⟩ : Coroutine)
          ∈ (scheduler_get_first_runnable ⟨none, [⟨1, .cs_done⟩]⟩).freed
        ∧ (⟨2, .cs_done⟩ : Coroutine)
          ∈ (recycle_global_queue ⟨[⟨2, .cs_done⟩], [[]], 0⟩).freed) :=
  ⟨rfl, rfl, rfl, rfl,
    done_fiber_freed_by_worker_and_monitor _ _ _ _ _ _ rfl rfl rfl rfl⟩

/-- Claim C4 counterexample: a global queue holding the two Runnable fibers
0 and 1 on a one-worker runtime.  recycle_global_queue dispatches fiber 0,
but its loop index is compared against the queue size re-read as it shrinks,
so the call returns with the Runnable fiber 1 still in the global queue: the
call does not drain the global queue. -/
theorem recycle_global_queue_not_drained_cex :
    recycle_global_queue ⟨[⟨0, .cs_runnable⟩, ⟨1, .cs_runnable⟩], [[]], 0⟩
      = ⟨false, ⟨[⟨1, .cs_runnable⟩], [[⟨0, .cs_runnable⟩]], 0⟩, []⟩
    ∧ (⟨1, .cs_runnable⟩ : Coroutine)
        ∈ (recycle_global_queue
            ⟨[⟨0, .cs_runnable⟩, ⟨1, .cs_runnable⟩], [[]], 0⟩).state.global_queue := by
  decide

/-- Claim C4 (amended): on a runtime with at least one worker, each
recycle_global_queue call dispatches Runnable fibers round-robin but need not
drain the queue.  Every fiber Runnable in the global queue when the call
begins is, at return, either still in the global queue or appended to some
worker's local queue; and when the head is Runnable, the call pops it from
the global queue and appends it to worker (last + 1) mod worker-count,
recording that worker in the shared round-robin counter, before continuing
the scan with the iteration index advanced against the shrunken size. -/
theorem recycle_global_queue_runnable_dispatch (st : RuntimeState)
    (hw : 0 < st.workers.length) :
    (∀ c, c ∈ st.global_queue → c.state = .cs_runnable →
        c ∈ (recycle_global_queue st).state.global_queue
        ∨ c ∈ (recycle_global_queue st).state.workers.flatten)
    ∧ (∀ c rest, st.global_queue = c :: rest → c.state = .cs_runnable →
        recycle_global_queue st
          = recycle_global_queue_loop rest.length 1
              ⟨rest, workers_enqueue st.workers ((st.last + 1) % st.workers.length) c,
                (st.last + 1) % st.workers.length⟩ []) := by
  constructor
  · intro c hmem hrun
    exact recycle_loop_runnable_preserved _ _ _ _ _ hw hmem hrun
  · intro c rest hq hrun
    simp [recycle_global_queue, recycle_global_queue_loop, hq, hrun,
      enqueue_to_next_thread]

/-- Witness for recycle_global_queue_runnable_dispatch on a one-worker
runtime with two Runnable fibers in the global queue. -/
theorem recycle_global_queue_runnable_dispatch_witness :
    0 < (⟨[⟨0, .cs_runnable⟩, ⟨1, .cs_runnable⟩], [[]], 0⟩
          : RuntimeState).workers.length
    ∧ ((⟨1, .cs_runnable⟩ : Coroutine)
          ∈ (recycle_global_queue
              ⟨[⟨0, .cs_runnable⟩, ⟨1, .cs_runnable⟩], [[]], 0⟩).state.global_queue
        ∨ (⟨1, .cs_runnable⟩ : Coroutine)
          ∈ (recycle_global_queue
              ⟨[⟨0, .cs_runnable⟩, ⟨1, .cs_runnable⟩], [[]], 0⟩).state.workers.flatten)
    ∧ recycle_global_queue ⟨[⟨0, .cs_runnable⟩, ⟨1, .cs_runnable⟩], [[]], 0⟩
        = recycle_global_queue_loop 1 1
            ⟨[⟨1, .cs_runnable⟩], workers_enqueue [[]] ((0 + 1) % 1) ⟨0, .cs_runnable⟩,
              (0 + 1) % 1⟩ [] :=
  ⟨by decide,
    (recycle_global_queue_runnable_dispatch
      ⟨[⟨0, .cs_runnable⟩, ⟨1, .cs_runnable⟩], [[]], 0⟩ (by decide)).1
      ⟨1, .cs_runnable⟩ (by decide) rfl,
    (recycle_global_queue_runnable_dispatch
      ⟨[⟨0, .cs_runnable⟩, ⟨1, .cs_runnable⟩], [[]], 0⟩ (by decide)).2
      ⟨0, .cs_runnable⟩ [⟨1, .cs_runnable⟩] rfl rfl⟩

theorem copy_x_loop_spec (r x : Nat → Nat) (n : Nat) :
    ∀ i, copy_x_loop r x n i = if i < n then x i else r i := by
  induction n with
  | zero => intro i; simp [copy_x_loop]
  | succ n ih =>
    intro i
    by_cases h : i = n
    · subst h
      simp [copy_x_loop, Function.update_same]
    · rw [copy_x_loop, Function.update_noteq h, ih i]
      by_cases hlt : i < n
      · simp [hlt, Nat.lt_succ_of_lt hlt]
      · have h2 : ¬ i < n + 1 := by omega
        simp [hlt, h2]

/-- Claim C3: copy_current_ucontext copies every general-purpose register
(x0 through x28 into r[0..28], the frame pointer into r[29], the link
register into r[30]), the stack pointer and the program counter from the
OS-supplied interrupted machine context into the fiber's register file, each
value unchanged. -/
theorem copy_current_ucontext_copies_all_registers
    (regs : Registers) (ss : ThreadState64) (i : Nat) (h : i < 29) :
    (copy_current_ucontext regs ss).r i = ss.x i
    ∧ (copy_current_ucontext regs ss).r 29 = ss.fp
    ∧ (copy_current_ucontext regs ss).r 30 = ss.lr
    ∧ (copy_current_ucontext regs ss).sp = ss.sp
    ∧ (copy_current_ucontext regs ss).pc = ss.pc := by
  refine ⟨?_, ?_, ?_, rfl, rfl⟩
  · have h30 : i ≠ 30 := by omega
    have h29 : i ≠ 29 := by omega
    simp only [copy_current_ucontext]
    rw [Function.update_noteq h30, Function.update_noteq h29, copy_x_loop_spec]
    simp [h]
  · simp only [copy_current_ucontext]
    rw [Function.update_noteq (by omega), Function.update_same]
  · simp only [copy_current_ucontext]
    rw [Function.update_same]

/-- Witness for copy_current_ucontext_copies_all_registers at a concrete
register file and machine context, register index 7. -/
theorem copy_current_ucontext_copies_all_registers_witness :
    7 < 29
    ∧ ((copy_current_ucontext ⟨fun n => n + 100, 55, 66⟩
          ⟨fun n => n + 1, 40, 41, 42, 43⟩).r 7
        = (fun n => n + 1 : Nat → Nat) 7
      ∧ (copy_current_ucontext ⟨fun n => n + 100, 55, 66⟩
          ⟨fun n => n + 1, 40, 41, 42, 43⟩).r 29 = 40
      ∧ (copy_current_ucontext ⟨fun n => n + 100, 55, 66⟩
          ⟨fun n => n + 1, 40, 41, 42, 43⟩).r 30 = 41
      ∧ (copy_current_ucontext ⟨fun n => n + 100, 55, 66⟩
          ⟨fun n => n + 1, 40, 41, 42, 43⟩).sp = 42
      ∧ (copy_current_ucontext ⟨fun n => n + 100, 55, 66⟩
          ⟨fun n => n + 1, 40, 41, 42, 43⟩).pc = 43) :=
  ⟨by decide,
    copy_current_ucontext_copies_all_registers
      ⟨fun n => n + 100, 55, 66⟩ ⟨fun n => n + 1, 40, 41, 42, 43⟩ 7 (by decide)⟩

/-- Claim C5 counterexample: with the coroutine_context_t allocation failing
and the other allocations succeeding, runtime_schedule dies on the
m_dev_assert_null in coroutine_context_create instead of returning, so it
does not return a null fiber handle to the caller. -/
theorem runtime_schedule_alloc_failure_cex :
    runtime_schedule ⟨true, false, true, true⟩ [] 0 = .error .assertFail
    ∧ runtime_schedule ⟨true, false, true, true⟩ [] 0
        ≠ .ok (none, ([] : CoroutineQueue)) := by
  constructor
  · rfl
  · simp [runtime_schedule, coroutine_create_allocs]

/-- Claim C5 (amended): if any internal allocation fails during spawn, the
failure is fatal rather than reported: runtime_schedule dies on an assertion
(context struct, stack struct or stack memory allocation) or on a null
dereference (fiber struct allocation) and never returns; in particular it
never returns a null fiber handle.  When every allocation succeeds it
returns the new non-null fiber, appended to the global queue in state
cs_runnable. -/
theorem runtime_schedule_alloc_failure_fatal (o : AllocOracle)
    (gq : CoroutineQueue) (newId : Nat)
    (hfail : o.coroutineAlloc = false ∨ o.contextAlloc = false
      ∨ o.stackAlloc = false ∨ o.stackMemAlloc = false) :
    (∃ e, runtime_schedule o gq newId = .error e)
    ∧ (∀ q, runtime_schedule o gq newId ≠ .ok (none, q)) := by
  obtain ⟨ca, xa, sa, ma⟩ := o
  constructor
  · cases ca <;> cases xa <;> cases sa <;> cases ma <;>
      first
        | exact ⟨.assertFail, rfl⟩
        | exact ⟨.nullDeref, rfl⟩
        | (exfalso; simp at hfail)
  · intro q
    cases ca <;> cases xa <;> cases sa <;> cases ma <;>
      simp [runtime_schedule, coroutine_create_allocs]

/-- Witness for runtime_schedule_alloc_failure_fatal: the stack-memory
allocation fails. -/
theorem runtime_schedule_alloc_failure_fatal_witness :
    ((⟨true, true, true, false⟩ : AllocOracle).coroutineAlloc = false
      ∨ (⟨true, true, true, false⟩ : AllocOracle).contextAlloc = false
      ∨ (⟨true, true, true, false⟩ : AllocOracle).stackAlloc = false
      ∨ (⟨true, true, true, false⟩ : AllocOracle).stackMemAlloc = false)
    ∧ ((∃ e, runtime_schedule ⟨true, true, true, false⟩ [] 5 = .error e)
      ∧ (∀ q, runtime_schedule ⟨true, true, true, false⟩ [] 5 ≠ .ok (none, q))) :=
  ⟨by decide,
    runtime_schedule_alloc_failure_fatal ⟨true, true, true, false⟩ [] 5
      (by decide)⟩

theorem readLE_lt (args : List Nat) (h : ∀ a ∈ args, a < 256) (k : Nat) :
    ∀ off, readLE args off k < 2 ^ (8 * k) := by
  induction k with
  | zero => intro off; simp [readLE]
  | succ k ih =>
    intro off
    have hb : args.getD off 0 < 256 := by
      by_cases hoff : off < args.length
      · rw [List.getD_eq_getElem _ _ hoff]
        exact h _ (List.getElem_mem hoff)
      · rw [List.getD_eq_default _ _ (by omega)]
        omega
    have hr : readLE args (off + 1) k < 2 ^ (8 * k) := ih (off + 1)
    calc readLE args off (k + 1)
        = args.getD off 0 + 256 * readLE args (off + 1) k := rfl
      _ < 256 * (readLE args (off + 1) k + 1) := by omega
      _ ≤ 256 * 2 ^ (8 * k) := Nat.mul_le_mul_left _ hr
      _ = 2 ^ (8 * (k + 1)) := by
          rw [Nat.mul_succ, pow_add]
          norm_num [Nat.mul_comm]

theorem copy_args_ok (args : List Nat) (sizes : List Nat) :
    ∀ (r : Nat → Nat) (i offset : Nat),
      (∀ s ∈ sizes, okSize s) →
      ∃ r', coroutine_context_copy_args args r sizes i offset = ⟨false, r'⟩
        ∧ (∀ j, j < sizes.length →
            r' (i + j) = readLE args (offset + (sizes.take j).sum) (sizes.getD j 0))
        ∧ (∀ k, k < i ∨ i + sizes.length ≤ k → r' k = r k) := by
  induction sizes with
  | nil =>
    intro r i offset _
    exact ⟨r, rfl, by simp, fun k _ => rfl⟩
  | cons s rest ih =>
    intro r i offset hval
    have hs : okSize s := hval s (by simp)
    obtain ⟨r', heq, hwrites, hout⟩ :=
      ih (Function.update r i (readLE args offset s)) (i + 1) (offset + s)
        (fun t ht => hval t (by simp [ht]))
    refine ⟨r', ?_, ?_, ?_⟩
    · simp only [coroutine_context_copy_args, hs, ite_true, if_true]
      exact heq
    · intro j hj
      cases j with
      | zero =>
        have h0 : r' i = readLE args offset s := by
          rw [hout i (Or.inl (by omega)), Function.update_same]
        simpa using h0
      | succ j =>
        have hj' : j < rest.length := by simpa using hj
        have hw := hwrites j hj'
        have e1 : i + (j + 1) = i + 1 + j := by omega
        have e2 : offset + ((s :: rest).take (j + 1)).sum
            = offset + s + (rest.take j).sum := by
          simp [List.take_succ_cons]
          omega
        have e3 : (s :: rest).getD (j + 1) 0 = rest.getD j 0 := by
          simp [List.getD_cons_succ]
        rw [e1, e2, e3]
        exact hw
    · intro k hk
      have hk1 : k < i + 1 ∨ (i + 1) + rest.length ≤ k := by
        rcases hk with h | h
        · exact Or.inl (by omega)
        · right
          have : i + (rest.length + 1) ≤ k := by simpa using h
          omega
      have hki : k ≠ i := by
        rcases hk with h | h
        · omega
        · have : i + (rest.length + 1) ≤ k := by simpa using h
          omega
      rw [hout k hk1, Function.update_noteq hki]

theorem copy_args_fatal (args : List Nat) (good : List Nat) :
    ∀ (b : Nat) (restSizes : List Nat) (r : Nat → Nat) (i offset : Nat),
      (∀ s ∈ good, okSize s) → ¬ okSize b →
      ∃ r', coroutine_context_copy_args args r (good ++ b :: restSizes) i offset
          = ⟨true, r'⟩
        ∧ (∀ k, i + good.length ≤ k → r' k = r k) := by
  induction good with
  | nil =>
    intro b restSizes r i offset _ hb
    refine ⟨r, ?_, fun k _ => rfl⟩
    simp only [List.nil_append, coroutine_context_copy_args, hb, ite_false, if_false]
  | cons s good ih =>
    intro b restSizes r i offset hval hb
    have hs : okSize s := hval s (by simp)
    obtain ⟨r', heq, hout⟩ :=
      ih b restSizes (Function.update r i (readLE args offset s)) (i + 1) (offset + s)
        (fun t ht => hval t (by simp [ht])) hb
    refine ⟨r', ?_, ?_⟩
    · simp only [List.cons_append, coroutine_context_copy_args, hs, ite_true, if_true]
      exact heq
    · intro k hk
      have hk' : i + (good.length + 1) ≤ k := by simpa using hk
      rw [hout k (by omega), Function.update_noteq (by omega)]

/-- Claim C8: coroutine_context_copy_args installs each argument of size 1,
2, 4 or 8, in declaration order, by reading its bytes little-endian from the
packed argument buffer, zero-extending (the value fits in 64 bits) and
placing the value in the next register r[i]; registers past the argument
list are untouched.  An argument of any other size reaches the fatal
assertion arm: the call returns with the fatal flag and neither that
argument's register nor any later register is written. -/
theorem coroutine_context_copy_args_spec (r : Nat → Nat) (args sizes : List Nat) :
    ((∀ s ∈ sizes, okSize s) →
      ∃ r', coroutine_context_copy_args args r sizes 0 0 = ⟨false, r'⟩
        ∧ (∀ j, j < sizes.length →
            r' j = readLE args ((sizes.take j).sum) (sizes.getD j 0))
        ∧ (∀ k, sizes.length ≤ k → r' k = r k))
    ∧ (∀ good b restSizes, sizes = good ++ b :: restSizes →
        (∀ s ∈ good, okSize s) → ¬ okSize b →
        ∃ r', coroutine_context_copy_args args r sizes 0 0 = ⟨true, r'⟩
          ∧ ∀ k, good.length ≤ k → r' k = r k)
    ∧ ((∀ a ∈ args, a < 256) → ∀ off s, okSize s →
        readLE args off s < 2 ^ (8 * s) ∧ readLE args off s < 2 ^ 64) := by
  refine ⟨?_, ?_, ?_⟩
  · intro hval
    obtain ⟨r', heq, hw, hout⟩ := copy_args_ok args sizes r 0 0 hval
    refine ⟨r', heq, ?_, ?_⟩
    · intro j hj
      have := hw j hj
      simpa using this
    · intro k hk
      exact hout k (Or.inr (by omega))
  · intro good b restSizes hsz hval hb
    subst hsz
    obtain ⟨r', heq, hout⟩ := copy_args_fatal args good b restSizes r 0 0 hval hb
    exact ⟨r', heq, fun k hk => hout k (by omega)⟩
  · intro hbytes off s hs
    have h1 := readLE_lt args hbytes s off
    refine ⟨h1, lt_of_lt_of_le h1 ?_⟩
    have h64 : 8 * s ≤ 64 := by
      rcases hs with h | h | h | h <;> omega
    exact Nat.pow_le_pow_right (by omega) h64

/-- Witness for coroutine_context_copy_args_spec: a 1-byte and a 2-byte
argument read from the concrete packed buffer [171, 52, 18]. -/
theorem coroutine_context_copy_args_spec_witness :
    (∀ s ∈ ([1, 2] : List Nat), okSize s)
    ∧ ∃ r', coroutine_context_copy_args [171, 52, 18] (fun _ => 999) [1, 2] 0 0
          = ⟨false, r'⟩
        ∧ (∀ j, j < ([1, 2] : List Nat).length →
            r' j = readLE [171, 52, 18] ((([1, 2] : List Nat).take j).sum)
              (([1, 2] : List Nat).getD j 0))
        ∧ (∀ k, ([1, 2] : List Nat).length ≤ k
            → r' k = (fun _ => 999 : Nat → Nat) k) :=
  ⟨by decide,
    (coroutine_context_copy_args_spec (fun _ => 999) [171, 52, 18] [1, 2]).1
      (by decide)⟩

/-- Claim C9: no lock is held across a context restore.  On every path
through thread_schedule (both branches of the current-fiber check and both
outcomes of the runnable pick), through the preemption handler
sigurg_handler, and through the worker main loop loom_working_thread_main,
every restore event occurs with zero held global queue locks and zero held
local queue locks. -/
theorem no_lock_held_across_restore :
    (∀ currentRunnable foundRunnable : Bool,
      locksClearAtRestore
        (thread_schedule_events currentRunnable foundRunnable) 0 0 = true)
    ∧ locksClearAtRestore sigurg_handler_events 0 0 = true
    ∧ locksClearAtRestore loom_working_thread_main_events 0 0 = true := by
  refine ⟨fun cr fr => ?_, by decide, by decide⟩
  cases cr <;> cases fr <;> decide

/-- Claim C10: sigblock_malloc either returns null (exactly when the host
allocation fails, with no bytes written) or a fully zeroed block; hence the
objects the runtime builds on it start zero-initialized, and in particular a
newly created fiber's owning-worker back-reference (coroutine->thread) is
null, since coroutine_create never writes it. -/
theorem sigblock_malloc_zeroed (raw : Option (List Nat)) (f l p : Nat) :
    (sigblock_malloc raw).isNone = raw.isNone
    ∧ ((sigblock_malloc raw).getD []).all (fun b => b == 0) = true
    ∧ (coroutine_create_fields f l p).thread = 0 := by
  refine ⟨?_, ?_, rfl⟩ <;> cases raw <;>
    simp [sigblock_malloc, List.all_eq_true]

end Loom
